import Mathlib

/-!
Shallow embedding of `src/main.py` (class `AmbulanceDetectionSystem`).

Confidence scores and elapsed times (Python floats) are modelled as
rationals; the comparisons the code performs on them behave the same on
the values involved.  Python strings that the code lowercases are
modelled as lists of characters, so that `str.lower()` becomes a
structural map.  The YOLO model, the OpenCV capture and the renderer
are external collaborators: the model is represented by the raw boxes
it returns per frame together with the class-name table `names`, the
capture by the sequence of read results, and drawing calls by the
command records they would receive.
-/

namespace AmbulanceSystem

/-- A raw box as returned by the model for one frame: `box.conf`,
`box.cls` (class id, looked up in `model.names`) and the `xyxy`
coordinates, already converted to integers as the code does. -/
structure Box where
  conf : ℚ
  cls : Nat
  x1 : Int
  y1 : Int
  x2 : Int
  y2 : Int
deriving Repr, DecidableEq

/-- A detection record: the dictionary with keys `bbox` (the list
`[int(x1), int(y1), int(x2), int(y2)]`) and `confidence` built for each
kept box. -/
structure Detection where
  bbox : List Int
  confidence : ℚ
deriving Repr, DecidableEq

/-- Builds the detection record from a raw box (lines 71-76). -/
def mkDetection (b : Box) : Detection :=
  { bbox := [b.x1, b.y1, b.x2, b.y2], confidence := b.conf }

/-- Model of the Python string method `lower()` on a class name. -/
def pyLower (s : List Char) : List Char :=
  s.map Char.toLower

/-- Characters of the literal ambulance string compared against on
line 70. -/
def ambulanceChars : List Char :=
  "ambulance".toList

/-- Source function `detect_in_frame` (lines 45-79): for each box of
the inference result, keep it when
`confidence > self.confidence_threshold` (line 65) and
`class_name.lower()` equals the literal ambulance string (line 70), where
`class_name = self.model.names[class_id]`; kept boxes are appended in
input order. -/
def detect_in_frame (names : Nat → List Char) (confidence_threshold : ℚ) :
    List Box → List Detection
  | [] => []
  | b :: rest =>
    if confidence_threshold < b.conf then
      if pyLower (names b.cls) = ambulanceChars then
        mkDetection b :: detect_in_frame names confidence_threshold rest
      else
        detect_in_frame names confidence_threshold rest
    else
      detect_in_frame names confidence_threshold rest

/-- Statistics dictionary `self.stats` (lines 40-43). -/
structure Stats where
  total_detections : Nat
  signal_changes : Nat
deriving Repr, DecidableEq

/-- Mutable attributes of `AmbulanceDetectionSystem` touched by the
signal-control operations.  The field `timers_started` counts the
cumulative number of `threading.Timer(30.0, ...).start()` calls
performed (line 118); it is a model observation, not a Python
attribute. -/
structure SystemState where
  emergency_active : Bool
  traffic_signal_state : String
  stats : Stats
  timers_started : Nat
deriving Repr, DecidableEq

/-- State written by `__init__` (lines 30-43). -/
def initState : SystemState :=
  { emergency_active := false
    traffic_signal_state := "RED"
    stats := { total_detections := 0, signal_changes := 0 }
    timers_started := 0 }

/-- Source function `trigger_emergency_protocol` (lines 106-118):
guarded by `if not self.emergency_active`; inside the guard it sets the
flag, turns the signal GREEN, increments `signal_changes` and starts
one reset timer. -/
def trigger_emergency_protocol (s : SystemState) : SystemState :=
  if s.emergency_active then s
  else
    { s with
        emergency_active := true
        traffic_signal_state := "GREEN"
        stats := { s.stats with signal_changes := s.stats.signal_changes + 1 }
        timers_started := s.timers_started + 1 }

/-- Source function `reset_emergency_protocol` (lines 120-126):
unconditionally clears the flag and turns the signal RED; it does not
touch `self.stats` and starts no timer. -/
def reset_emergency_protocol (s : SystemState) : SystemState :=
  { s with emergency_active := false, traffic_signal_state := "RED" }

/-- Per-frame controller update of the stream loop (lines 154-156):
under `if detections:` the count of detections is added to
`total_detections` and `trigger_emergency_protocol` is called; an empty
list leaves everything alone. -/
def onSightings (s : SystemState) (detections : List Detection) : SystemState :=
  if detections.isEmpty then s
  else
    trigger_emergency_protocol
      { s with
          stats := { s.stats with
            total_detections := s.stats.total_detections + detections.length } }

/-- Inputs that can reach the controller: the filtered detections of a
frame (from the loop thread) or the reset timer firing. -/
inductive Op where
  | sightings (detections : List Detection)
  | timerFire
deriving Repr, DecidableEq

/-- One controller step per input. -/
def step (s : SystemState) : Op → SystemState
  | Op.sightings d => onSightings s d
  | Op.timerFire => reset_emergency_protocol s

/-- A run of the controller over a sequence of inputs. -/
def run (s : SystemState) (ops : List Op) : SystemState :=
  ops.foldl step s

/-- Semantics of `deque(maxlen=30).append` (lines 141 and 164): when
the window is at capacity, the oldest sample is discarded from the
left. -/
def dequeAppend (maxlen : Nat) (w : List ℚ) (x : ℚ) : List ℚ :=
  if w.length < maxlen then w ++ [x] else w.tail ++ [x]

/-- Contents of `fps_counter` after the given fps samples have been
appended in order, starting from the empty deque of line 141. -/
def fps_window (samples : List ℚ) : List ℚ :=
  samples.foldl (dequeAppend 30) []

/-- Line 165: `avg_fps = sum(fps_counter) / len(fps_counter)`. -/
def averageFps (w : List ℚ) : ℚ :=
  w.sum / (w.length : ℚ)

/-- Line 163: `fps = 1.0 / processing_time`.  Python float division
raises `ZeroDivisionError` when the divisor is `0.0`; any other value,
negative included, yields the quotient. -/
def frame_fps (processing_time : ℚ) : Except String ℚ :=
  if processing_time = 0 then Except.error "ZeroDivisionError"
  else Except.ok (1 / processing_time)

/-- Coordinates passed to one `cv2.rectangle` call. -/
structure Rect where
  x1 : Int
  y1 : Int
  x2 : Int
  y2 : Int
deriving Repr, DecidableEq

/-- Drawing calls that `draw_detections` issues for one detection
(lines 85-102): the red box, the filled label background, and the label
text position.  The values `labelW` and `labelH` stand for the
`cv2.getTextSize` result, which the external renderer supplies. -/
structure DrawCmds where
  boxRect : Rect
  labelBgRect : Rect
  textPos : Int × Int
deriving Repr, DecidableEq

/-- Box coordinates as `draw_detections` reads them from indices 0..3
of the bbox list of a detection. -/
def rawRect (d : Detection) : Rect :=
  { x1 := d.bbox.getD 0 0
    y1 := d.bbox.getD 1 0
    x2 := d.bbox.getD 2 0
    y2 := d.bbox.getD 3 0 }

/-- Commands issued for one detection (lines 85-102): every coordinate
is taken directly from `bbox`, with the label offsets of lines 97-101;
no frame dimension is consulted. -/
def drawCmdsFor (labelW labelH : Int) (d : Detection) : DrawCmds :=
  { boxRect := rawRect d
    labelBgRect :=
      { x1 := (rawRect d).x1
        y1 := (rawRect d).y1 - labelH - 10
        x2 := (rawRect d).x1 + labelW
        y2 := (rawRect d).y1 - 5 }
    textPos := ((rawRect d).x1, (rawRect d).y1 - 10) }

/-- Source function `draw_detections` (lines 81-104): one set of
drawing calls per detection, in input order. -/
def draw_detections (labelW labelH : Int) (detections : List Detection) :
    List DrawCmds :=
  detections.map (drawCmdsFor labelW labelH)

/-- Clamping of an integer coordinate into the interval `[lo, hi]`. -/
def clampCoord (lo hi v : Int) : Int :=
  max lo (min v hi)

/-- Modelled from the spec: the claimed behaviour that out-of-bounds
box coordinates are clamped to the frame bounds before drawing.  The
code under `src/` performs no such step; this definition exists only to
be compared against the coordinates `draw_detections` emits. -/
def clampRect (width height : Int) (r : Rect) : Rect :=
  { x1 := clampCoord 0 (width - 1) r.x1
    y1 := clampCoord 0 (height - 1) r.y1
    x2 := clampCoord 0 (width - 1) r.x2
    y2 := clampCoord 0 (height - 1) r.y2 }

/-- Possible outcomes when the loop body processes one successfully
read frame: inference returns boxes and every later step of the
iteration succeeds; inference itself raises; or inference returns boxes
and a later step (drawing or overlay) raises. -/
inductive FrameOutcome where
  | detections (boxes : List Box)
  | detectRaises
  | drawRaises (boxes : List Box)
deriving Repr

/-- One `cap.read()` result: `ret == False`, or a frame with the given
processing outcome. -/
inductive ReadResult where
  | fail
  | ok (outcome : FrameOutcome)
deriving Repr

/-- Ways the `while True` loop of lines 144-171 ends: the `break` on a
failed read (clean end of stream), or an exception propagating out of
the loop body into the `finally` of line 173. -/
inductive LoopExit where
  | endOfStream
  | aborted
deriving Repr, DecidableEq

/-- Loop of `process_video_stream` (lines 143-171) over a finite prefix
of read results.  There is no per-frame exception handler in the
source: an exception raised while processing a frame leaves the `while`
loop at once (the `try/finally` only releases resources), so no later
read happens.  An exhausted model stream is reported as a clean end. -/
def process_video_stream (names : Nat → List Char) (t : ℚ) :
    SystemState → List ReadResult → SystemState × LoopExit
  | s, [] => (s, LoopExit.endOfStream)
  | s, ReadResult.fail :: _ => (s, LoopExit.endOfStream)
  | s, ReadResult.ok (FrameOutcome.detections boxes) :: rest =>
      process_video_stream names t (onSightings s (detect_in_frame names t boxes)) rest
  | s, ReadResult.ok FrameOutcome.detectRaises :: _ => (s, LoopExit.aborted)
  | s, ReadResult.ok (FrameOutcome.drawRaises boxes) :: _ =>
      (onSightings s (detect_in_frame names t boxes), LoopExit.aborted)

/-- Invariant relating the emergency flag and the displayed signal
colour. -/
def signalInvariant (s : SystemState) : Prop :=
  (s.emergency_active = true ↔ s.traffic_signal_state = "GREEN") ∧
  (s.emergency_active = false ↔ s.traffic_signal_state = "RED")

instance (s : SystemState) : Decidable (signalInvariant s) := by
  unfold signalInvariant
  infer_instance

/-- Spec-side keep predicate for the detection filter: the class label
equals the filter string case-insensitively (both sides lowered) and
the confidence is strictly above the threshold. -/
def keepsBox (names : Nat → List Char) (t : ℚ) (b : Box) : Bool :=
  decide (pyLower (names b.cls) = pyLower ambulanceChars) && decide (t < b.conf)

/-- Class-name table that labels every class id `ambulance`; used for
concrete runs. -/
def names0 : Nat → List Char :=
  fun _ => ambulanceChars

/-- A raw box labelled `ambulance` at confidence 9/10. -/
def ambBox : Box :=
  { conf := mkRat 9 10, cls := 0, x1 := 0, y1 := 0, x2 := 10, y2 := 10 }

/-- A raw box labelled `ambulance` at confidence exactly 7/10. -/
def boundaryBox : Box :=
  { conf := mkRat 7 10, cls := 0, x1 := 0, y1 := 0, x2 := 10, y2 := 10 }

/-- A detection whose box lies partly outside a 640 by 480 frame. -/
def oobDetection : Detection :=
  { bbox := [-5, -5, 10000, 10000], confidence := mkRat 9 10 }

end AmbulanceSystem

namespace AmbulanceSystem

lemma pyLower_ambulance : pyLower ambulanceChars = ambulanceChars := by decide

lemma detect_in_frame_eq_filter (names : Nat → List Char) (t : ℚ)
    (boxes : List Box) :
    detect_in_frame names t boxes
      = (boxes.filter (keepsBox names t)).map mkDetection := by
  induction boxes with
  | nil => rfl
  | cons b rest ih =>
    by_cases h1 : t < b.conf <;> by_cases h2 : pyLower (names b.cls) = ambulanceChars <;>
      simp [detect_in_frame, keepsBox, List.filter_cons, h1, h2, pyLower_ambulance, ih]

/-- C2: the per-box selection of `detect_in_frame` keeps a detection
iff its class label equals the filter string case-insensitively and its
confidence is strictly greater than the threshold, preserving input
order; a box whose confidence equals the threshold exactly is
excluded. -/
theorem detect_keeps_iff :
    (∀ (names : Nat → List Char) (t : ℚ) (boxes : List Box),
        detect_in_frame names t boxes
          = (boxes.filter (keepsBox names t)).map mkDetection) ∧
    (∀ (names : Nat → List Char) (t : ℚ) (b : Box), b.conf = t →
        detect_in_frame names t [b] = []) := by
  refine ⟨detect_in_frame_eq_filter, ?_⟩
  intro names t b hb
  simp [detect_in_frame, hb]

/-- C2 witness: a box at confidence exactly 7/10 with threshold 7/10 is
excluded. -/
theorem detect_keeps_iff_witness :
    boundaryBox.conf = mkRat 7 10 ∧
    detect_in_frame names0 (mkRat 7 10) [boundaryBox] = [] :=
  ⟨rfl, detect_keeps_iff.2 names0 (mkRat 7 10) boundaryBox rfl⟩

end AmbulanceSystem

namespace AmbulanceSystem

lemma onSightings_active (s : SystemState) (d : List Detection)
    (h : s.emergency_active = true) :
    (onSightings s d).emergency_active = true ∧
    (onSightings s d).traffic_signal_state = s.traffic_signal_state ∧
    (onSightings s d).stats.signal_changes = s.stats.signal_changes ∧
    (onSightings s d).timers_started = s.timers_started := by
  by_cases hd : d.isEmpty <;>
    simp [onSightings, trigger_emergency_protocol, hd, h]

lemma foldl_onSightings_active (calls : List (List Detection)) :
    ∀ s : SystemState, s.emergency_active = true →
      ((calls.foldl onSightings s).emergency_active = true ∧
       (calls.foldl onSightings s).traffic_signal_state = s.traffic_signal_state ∧
       (calls.foldl onSightings s).stats.signal_changes = s.stats.signal_changes ∧
       (calls.foldl onSightings s).timers_started = s.timers_started) := by
  induction calls with
  | nil => intro s h; simp [h]
  | cons c cs ih =>
    intro s h
    have h1 := onSightings_active s c h
    have h2 := ih (onSightings s c) h1.1
    simp only [List.foldl_cons]
    exact ⟨h2.1, h2.2.1.trans h1.2.1, h2.2.2.1.trans h1.2.2.1, h2.2.2.2.trans h1.2.2.2⟩

lemma onSightings_inactive_nonempty (s : SystemState) (d : List Detection)
    (h : s.emergency_active = false) (hd : d ≠ []) :
    (onSightings s d).emergency_active = true ∧
    (onSightings s d).traffic_signal_state = "GREEN" ∧
    (onSightings s d).stats.signal_changes = s.stats.signal_changes + 1 ∧
    (onSightings s d).timers_started = s.timers_started + 1 := by
  have hd2 : d.isEmpty = false := by simpa [List.isEmpty_iff] using hd
  simp [onSightings, trigger_emergency_protocol, hd2, h]

/-- C1: a trigger call made while the controller is already in
EMERGENCY leaves the state unchanged and starts no timer; any non-empty
sequence of non-empty `onSightings` calls starting from NORMAL ends in
EMERGENCY with exactly one `signal_changes` increment and exactly one
timer started. -/
theorem emergency_retrigger_noop :
    (∀ s : SystemState, s.emergency_active = true →
        trigger_emergency_protocol s = s) ∧
    (∀ (s : SystemState) (d : List Detection), s.emergency_active = true →
        (onSightings s d).emergency_active = true ∧
        (onSightings s d).traffic_signal_state = s.traffic_signal_state ∧
        (onSightings s d).stats.signal_changes = s.stats.signal_changes ∧
        (onSightings s d).timers_started = s.timers_started) ∧
    (∀ (s : SystemState) (calls : List (List Detection)),
        s.emergency_active = false → calls ≠ [] → (∀ c ∈ calls, c ≠ []) →
        ((calls.foldl onSightings s).emergency_active = true ∧
         (calls.foldl onSightings s).stats.signal_changes
            = s.stats.signal_changes + 1 ∧
         (calls.foldl onSightings s).timers_started = s.timers_started + 1)) := by
  refine ⟨?_, onSightings_active, ?_⟩
  · intro s h
    simp [trigger_emergency_protocol, h]
  · intro s calls h hne hcalls
    match calls with
    | [] => exact absurd rfl hne
    | c :: cs =>
      have hc : c ≠ [] := hcalls c (List.mem_cons_self c cs)
      have h1 := onSightings_inactive_nonempty s c h hc
      have h2 := foldl_onSightings_active cs (onSightings s c) h1.1
      simp only [List.foldl_cons]
      exact ⟨h2.1, h2.2.2.1.trans h1.2.2.1, h2.2.2.2.trans h1.2.2.2⟩

/-- C1 witness: two consecutive one-detection calls from the initial
state change the signal once and start one timer. -/
theorem emergency_retrigger_noop_witness :
    ([[⟨[0, 0, 10, 10], 1⟩], [⟨[0, 0, 10, 10], 1⟩]].foldl onSightings
        initState).emergency_active = true ∧
    ([[⟨[0, 0, 10, 10], 1⟩], [⟨[0, 0, 10, 10], 1⟩]].foldl onSightings
        initState).stats.signal_changes = initState.stats.signal_changes + 1 ∧
    ([[⟨[0, 0, 10, 10], 1⟩], [⟨[0, 0, 10, 10], 1⟩]].foldl onSightings
        initState).timers_started = initState.timers_started + 1 :=
  emergency_retrigger_noop.2.2 initState
    [[⟨[0, 0, 10, 10], 1⟩], [⟨[0, 0, 10, 10], 1⟩]] rfl (by decide) (by decide)

end AmbulanceSystem

namespace AmbulanceSystem

/-- C3: from NORMAL the only transition is to EMERGENCY, exactly on a
non-empty sightings input; from EMERGENCY the only transition is to
NORMAL, exactly on timer fire. -/
theorem signal_transitions_exact :
    (∀ (s : SystemState) (op : Op), s.emergency_active = false →
        ((step s op).emergency_active = true ↔
          ∃ d, op = Op.sightings d ∧ d ≠ [])) ∧
    (∀ (s : SystemState) (op : Op), s.emergency_active = true →
        ((step s op).emergency_active = false ↔ op = Op.timerFire)) := by
  constructor
  · intro s op h
    cases op with
    | sightings d =>
      by_cases hd : d.isEmpty
      · have hd2 : d = [] := List.isEmpty_iff.mp hd
        simp [step, onSightings, hd, h, hd2]
      · have hd2 : d ≠ [] := by simpa [List.isEmpty_iff] using hd
        simp [step, onSightings, trigger_emergency_protocol, hd, h, hd2]
    | timerFire =>
      simp [step, reset_emergency_protocol]
  · intro s op h
    cases op with
    | sightings d =>
      have h1 := (onSightings_active s d h).1
      simp [step, h1]
    | timerFire =>
      simp [step, reset_emergency_protocol]

/-- C3 witness: from the initial NORMAL state, a one-detection
sightings input moves to EMERGENCY, and from there a timer fire moves
back to NORMAL. -/
theorem signal_transitions_exact_witness :
    (step initState (Op.sightings [⟨[0, 0, 10, 10], 1⟩])).emergency_active = true ∧
    (step (step initState (Op.sightings [⟨[0, 0, 10, 10], 1⟩]))
        Op.timerFire).emergency_active = false :=
  ⟨(signal_transitions_exact.1 initState (Op.sightings [⟨[0, 0, 10, 10], 1⟩])
        rfl).mpr ⟨[⟨[0, 0, 10, 10], 1⟩], rfl, by decide⟩,
   (signal_transitions_exact.2 (step initState (Op.sightings [⟨[0, 0, 10, 10], 1⟩]))
        Op.timerFire (by decide)).mpr rfl⟩

/-- C4: firing the reset timer sets the state to NORMAL (flag cleared,
signal RED) unconditionally and leaves both statistics counters
unchanged; across all controller inputs, `signal_changes` changes only
on the NORMAL-to-EMERGENCY transition, and then by exactly one. -/
theorem timer_reset_frame :
    (∀ s : SystemState,
        (reset_emergency_protocol s).emergency_active = false ∧
        (reset_emergency_protocol s).traffic_signal_state = "RED" ∧
        (reset_emergency_protocol s).stats = s.stats) ∧
    (∀ (s : SystemState) (op : Op),
        (step s op).stats.signal_changes = s.stats.signal_changes ∨
        ((step s op).stats.signal_changes = s.stats.signal_changes + 1 ∧
          s.emergency_active = false ∧ (step s op).emergency_active = true ∧
          ∃ d, op = Op.sightings d ∧ d ≠ [])) := by
  constructor
  · intro s
    simp [reset_emergency_protocol]
  · intro s op
    cases op with
    | sightings d =>
      by_cases hd : d.isEmpty
      · left; simp [step, onSightings, hd]
      · have hd2 : d ≠ [] := by simpa [List.isEmpty_iff] using hd
        by_cases h : s.emergency_active
        · left; exact (onSightings_active s d h).2.2.1
        · right
          have h2 : s.emergency_active = false := by simpa using h
          have h3 := onSightings_inactive_nonempty s d h2 hd2
          exact ⟨h3.2.2.1, h2, h3.1, d, rfl, hd2⟩
    | timerFire =>
      left; simp [step, reset_emergency_protocol]

lemma step_counters_le (s : SystemState) (op : Op) :
    s.stats.total_detections ≤ (step s op).stats.total_detections ∧
    s.stats.signal_changes ≤ (step s op).stats.signal_changes := by
  cases op with
  | sightings d =>
    by_cases hd : d.isEmpty
    · simp [step, onSightings, hd]
    · by_cases h : s.emergency_active <;>
        simp [step, onSightings, trigger_emergency_protocol, hd, h]
  | timerFire =>
    simp [step, reset_emergency_protocol]

/-- C8: over any run of controller inputs, the counters
`total_detections` and `signal_changes` never decrease. -/
theorem stats_monotone (s : SystemState) (ops : List Op) :
    s.stats.total_detections ≤ (run s ops).stats.total_detections ∧
    s.stats.signal_changes ≤ (run s ops).stats.signal_changes := by
  induction ops generalizing s with
  | nil => simp [run]
  | cons op rest ih =>
    have h1 := step_counters_le s op
    have h2 := ih (step s op)
    simp only [run, List.foldl_cons] at h2 ⊢
    exact ⟨h1.1.trans h2.1, h1.2.trans h2.2⟩

lemma signalInvariant_trigger (s : SystemState) (h : signalInvariant s) :
    signalInvariant (trigger_emergency_protocol s) := by
  by_cases ha : s.emergency_active
  · simpa [trigger_emergency_protocol, ha] using h
  · unfold signalInvariant
    simp [trigger_emergency_protocol, ha]

lemma signalInvariant_reset (s : SystemState) :
    signalInvariant (reset_emergency_protocol s) := by
  unfold signalInvariant
  simp [reset_emergency_protocol]

lemma signalInvariant_onSightings (s : SystemState) (h : signalInvariant s)
    (d : List Detection) : signalInvariant (onSightings s d) := by
  by_cases hd : d.isEmpty
  · simpa [onSightings, hd] using h
  · have h2 : signalInvariant
        { s with stats := { s.stats with
            total_detections := s.stats.total_detections + d.length } } := by
      unfold signalInvariant at h ⊢
      simpa using h
    simpa [onSightings, hd] using signalInvariant_trigger _ h2

lemma signalInvariant_step (s : SystemState) (h : signalInvariant s) (op : Op) :
    signalInvariant (step s op) := by
  cases op with
  | sightings d => exact signalInvariant_onSightings s h d
  | timerFire => exact signalInvariant_reset s

lemma signalInvariant_run (s : SystemState) (h : signalInvariant s)
    (ops : List Op) : signalInvariant (run s ops) := by
  induction ops generalizing s with
  | nil => simpa [run] using h
  | cons op rest ih =>
    simp only [run, List.foldl_cons]
    exact ih (step s op) (signalInvariant_step s h op)

/-- C10: in every state reachable from initialization,
`emergency_active` is true iff the signal is GREEN and false iff the
signal is RED; the invariant holds initially and is preserved by
`trigger_emergency_protocol`, `reset_emergency_protocol`, and every
controller step. -/
theorem emergency_signal_agree :
    signalInvariant initState ∧
    (∀ s : SystemState, signalInvariant s →
        signalInvariant (trigger_emergency_protocol s) ∧
        signalInvariant (reset_emergency_protocol s) ∧
        ∀ op : Op, signalInvariant (step s op)) ∧
    (∀ ops : List Op, signalInvariant (run initState ops)) := by
  have hinit : signalInvariant initState := by decide
  exact ⟨hinit,
    fun s h => ⟨signalInvariant_trigger s h, signalInvariant_reset s,
      signalInvariant_step s h⟩,
    fun ops => signalInvariant_run initState hinit ops⟩

/-- C10 witness: the invariant is preserved when the trigger fires from
the initial state. -/
theorem emergency_signal_agree_witness :
    signalInvariant (trigger_emergency_protocol initState) :=
  (emergency_signal_agree.2.1 initState (by decide)).1

end AmbulanceSystem

namespace AmbulanceSystem

lemma foldl_dequeAppend (cap : Nat) (hcap : 0 < cap) (samples : List ℚ) :
    ∀ w : List ℚ, w.length ≤ cap →
      samples.foldl (dequeAppend cap) w
        = (w ++ samples).drop (w.length + samples.length - cap) := by
  induction samples with
  | nil =>
    intro w h
    simp [Nat.sub_eq_zero_of_le h]
  | cons x xs ih =>
    intro w h
    simp only [List.foldl_cons]
    by_cases hl : w.length < cap
    · have hd : dequeAppend cap w x = w ++ [x] := by simp [dequeAppend, hl]
      have h2 : (w ++ [x]).length ≤ cap := by
        simp only [List.length_append, List.length_cons, List.length_nil]
        omega
      rw [hd, ih (w ++ [x]) h2]
      have e1 : w ++ [x] ++ xs = w ++ x :: xs := by simp
      have e2 : (w ++ [x]).length + xs.length - cap
          = w.length + (x :: xs).length - cap := by
        simp only [List.length_append, List.length_cons, List.length_nil]
        omega
      rw [e1, e2]
    · match w with
      | [] => exact absurd hcap (by simpa using hl)
      | y :: ys =>
        have hle : ys.length + 1 = cap := by
          simp only [List.length_cons] at h hl
          omega
        have hd : dequeAppend cap (y :: ys) x = ys ++ [x] := by
          simp [dequeAppend, hl]
          omega
        have h2 : (ys ++ [x]).length ≤ cap := by
          simp only [List.length_append, List.length_cons, List.length_nil]
          omega
        rw [hd, ih (ys ++ [x]) h2]
        have e1 : ys ++ [x] ++ xs = ys ++ x :: xs := by simp
        have e2 : (ys ++ [x]).length + xs.length - cap = xs.length := by
          simp only [List.length_append, List.length_cons, List.length_nil]
          omega
        have e3 : (y :: ys).length + (x :: xs).length - cap = xs.length + 1 := by
          simp only [List.length_cons]
          omega
        rw [e1, e2, e3]
        have e4 : (y :: ys) ++ x :: xs = y :: (ys ++ x :: xs) := by simp
        rw [e4, List.drop_succ_cons]

/-- C6: the FPS window keeps exactly the most recent samples up to
capacity 30, evicting the oldest on overflow, so its length never
exceeds 30 and the displayed average depends only on the most recent 30
samples once more than 30 have been recorded. -/
theorem fps_window_spec :
    (∀ samples : List ℚ,
        fps_window samples = samples.drop (samples.length - 30)) ∧
    (∀ samples : List ℚ, (fps_window samples).length ≤ 30) ∧
    (∀ pre1 pre2 tail : List ℚ, tail.length = 30 →
        averageFps (fps_window (pre1 ++ tail))
          = averageFps (fps_window (pre2 ++ tail))) := by
  have hmain : ∀ samples : List ℚ,
      fps_window samples = samples.drop (samples.length - 30) := by
    intro samples
    have := foldl_dequeAppend 30 (by omega) samples [] (by simp)
    simpa [fps_window] using this
  have htail : ∀ pre tail : List ℚ, tail.length = 30 →
      fps_window (pre ++ tail) = tail := by
    intro pre tail ht
    rw [hmain]
    simp only [List.length_append, ht]
    rw [show pre.length + 30 - 30 = pre.length from by omega]
    exact List.drop_left pre tail
  refine ⟨hmain, ?_, ?_⟩
  · intro samples
    rw [hmain]
    simp only [List.length_drop]
    omega
  · intro pre1 pre2 tail ht
    rw [htail pre1 tail ht, htail pre2 tail ht]

/-- C6 witness: with 31 samples recorded, the average ignores the
first. -/
theorem fps_window_spec_witness :
    (List.replicate 30 (0 : ℚ)).length = 30 ∧
    averageFps (fps_window ([] ++ List.replicate 30 (0 : ℚ)))
      = averageFps (fps_window ([1] ++ List.replicate 30 (0 : ℚ))) :=
  ⟨by decide,
   fps_window_spec.2.2 [] [1] (List.replicate 30 0) (by decide)⟩

end AmbulanceSystem

namespace AmbulanceSystem

/-- C5 counterexample: with an inference failure on the first frame and
an ambulance frame right after it, the loop aborts with the state
untouched and never processes the second frame, although processing
that frame alone would have set `signal_changes` to 1.  The claimed
skip-and-continue behaviour does not hold. -/
theorem per_frame_error_not_skipped :
    process_video_stream names0 (mkRat 7 10) initState
        [ReadResult.ok FrameOutcome.detectRaises,
         ReadResult.ok (FrameOutcome.detections [ambBox])]
      = (initState, LoopExit.aborted) ∧
    (process_video_stream names0 (mkRat 7 10) initState
        [ReadResult.ok (FrameOutcome.detections [ambBox])]).1.stats.signal_changes
      = 1 ∧
    initState.stats.signal_changes = 0 :=
  ⟨by decide, by decide, rfl⟩

/-- C5 amended: a frame whose inference step fails aborts the whole
loop at once with the controller state exactly as it was; a frame whose
render step fails aborts the loop right after the statistics and
trigger update of that frame; only a failed read ends the loop cleanly.  In all cases
no later frame is processed. -/
theorem per_frame_error_aborts (names : Nat → List Char) (t : ℚ)
    (s : SystemState) (rest : List ReadResult) :
    process_video_stream names t s
        (ReadResult.ok FrameOutcome.detectRaises :: rest)
      = (s, LoopExit.aborted) ∧
    (∀ boxes : List Box,
        process_video_stream names t s
            (ReadResult.ok (FrameOutcome.drawRaises boxes) :: rest)
          = (onSightings s (detect_in_frame names t boxes), LoopExit.aborted)) ∧
    process_video_stream names t s (ReadResult.fail :: rest)
      = (s, LoopExit.endOfStream) :=
  ⟨rfl, fun _ => rfl, rfl⟩

/-- C7: line 163 computes `1.0 / processing_time` with no guard: a zero
elapsed time raises `ZeroDivisionError` and a negative elapsed time
yields a negative FPS sample, instead of the claimed FPS = 0 or skipped
sample. -/
theorem fps_division_unguarded :
    frame_fps 0 = Except.error "ZeroDivisionError" ∧
    frame_fps (mkRat (-1) 10) = Except.ok (-10) := by
  constructor
  · rfl
  · have hne : mkRat (-1) 10 ≠ 0 := by decide
    have hval : (1 : ℚ) / mkRat (-1) 10 = -10 := by
      rw [Rat.mkRat_eq_divInt]
      norm_num
    rw [frame_fps, if_neg hne, hval]

/-- C9 counterexample: for a detection whose box extends past a 640 by
480 frame, `draw_detections` emits the raw out-of-bounds coordinates,
which differ from their clamped value. -/
theorem draw_no_clamp_counterexample :
    (draw_detections 120 20 [oobDetection]).map DrawCmds.boxRect
      = [{ x1 := -5, y1 := -5, x2 := 10000, y2 := 10000 }] ∧
    clampRect 640 480 { x1 := -5, y1 := -5, x2 := 10000, y2 := 10000 }
      = { x1 := 0, y1 := 0, x2 := 639, y2 := 479 } ∧
    ({ x1 := -5, y1 := -5, x2 := 10000, y2 := 10000 } : Rect)
      ≠ { x1 := 0, y1 := 0, x2 := 639, y2 := 479 } :=
  ⟨by decide, by decide, by decide⟩

/-- C9 amended: `draw_detections` draws every box at exactly the
coordinates stored in the detection, consulting no frame bounds; when
those coordinates are not already within the frame, the emitted
rectangle differs from the clamped one. -/
theorem draw_uses_raw_coords (labelW labelH width height : Int)
    (d : Detection) (h : rawRect d ≠ clampRect width height (rawRect d)) :
    (drawCmdsFor labelW labelH d).boxRect = rawRect d ∧
    (drawCmdsFor labelW labelH d).boxRect ≠ clampRect width height (rawRect d) :=
  ⟨rfl, h⟩

/-- C9 amended witness: the out-of-bounds detection is drawn at its raw
coordinates. -/
theorem draw_uses_raw_coords_witness :
    (drawCmdsFor 120 20 oobDetection).boxRect = rawRect oobDetection ∧
    (drawCmdsFor 120 20 oobDetection).boxRect
      ≠ clampRect 640 480 (rawRect oobDetection) :=
  draw_uses_raw_coords 120 20 640 480 oobDetection (by decide)

end AmbulanceSystem
